/-
Formal model of the BioMotion Pro video-annotation application.

The TypeScript sources are shallowly embedded: JavaScript numbers are
modelled as exact rationals (ℚ), JavaScript NaN is modelled explicitly
where a claim mentions it, DOM/React state is threaded explicitly, and
fallible platform operations (zip reads, JSON.parse) are modelled with
Option/Except outcomes.  Field and function names follow the sources
(src/lib/utils, src/types/index, src/components/VideoPlayer.tsx,
src/components/Sidebar.tsx, and the top-level App component).
-/
import Mathlib

set_option maxHeartbeats 1000000

/-! ## Numeric helpers: JavaScript arithmetic on exact rationals -/

/-- JavaScript truncation toward zero (the quotient used by the `%`
operator). -/
def jsTrunc (q : ℚ) : ℤ := if 0 ≤ q then ⌊q⌋ else -⌊-q⌋

/-- The JavaScript remainder operator `a % b`: `a - b * trunc(a / b)`.
The result carries the sign of the dividend.  (For `b = 0` JavaScript
yields NaN; no call site of this model divides by zero.) -/
def jsRem (a b : ℚ) : ℚ := a - b * (jsTrunc (a / b) : ℚ)

/-- The composite `parseFloat(x.toFixed(2))` used for a clip's stored
duration: round to the nearest hundredth, ties away from zero for the
nonnegative values that occur here. -/
def round2 (q : ℚ) : ℚ := (⌊q * 100 + 1 / 2⌋ : ℚ) / 100

/-- Floor commutes with division by a positive integer:
`⌊q / n⌋ = ⌊q⌋ / n` (Euclidean division on ℤ). -/
theorem floor_div_pos_int (q : ℚ) (n : ℤ) (hn : 0 < n) :
    ⌊q / (n : ℚ)⌋ = ⌊q⌋ / n := by
  have hnq : (0 : ℚ) < (n : ℚ) := by exact_mod_cast hn
  apply le_antisymm
  · rw [Int.le_ediv_iff_mul_le hn, Int.le_floor]
    push_cast
    calc ((⌊q / (n : ℚ)⌋ : ℚ) * (n : ℚ)) ≤ q / (n : ℚ) * (n : ℚ) :=
          mul_le_mul_of_nonneg_right (Int.floor_le _) (le_of_lt hnq)
      _ = q := div_mul_cancel₀ q (ne_of_gt hnq)
  · rw [Int.le_floor]
    rw [le_div_iff₀ hnq]
    calc ((⌊q⌋ / n : ℤ) : ℚ) * (n : ℚ) = ((⌊q⌋ / n * n : ℤ) : ℚ) := by push_cast; ring
      _ ≤ ((⌊q⌋ : ℤ) : ℚ) := by exact_mod_cast Int.ediv_mul_le ⌊q⌋ (ne_of_gt hn)
      _ ≤ q := Int.floor_le q

/-! ## Geometry / time utilities (src/lib/utils) -/

/-- A point in the normalized [0,1]×[0,1] coordinate space (or, for
`denormalizePosition`, in pixel space). -/
structure Point2 where
  x : ℚ
  y : ℚ
deriving DecidableEq, Repr

/-- The bounding box returned by `getBoundingClientRect()` on the capture
element. -/
structure DOMRect where
  left : ℚ
  top : ℚ
  width : ℚ
  height : ℚ
deriving DecidableEq, Repr

/-- `normalizePosition(clientX, clientY, element)`: subtract the element's
on-screen top-left offset and divide by its width/height.  The element is
modelled by its bounding rectangle. -/
def normalizePosition (clientX clientY : ℚ) (rect : DOMRect) : Point2 :=
  ⟨(clientX - rect.left) / rect.width, (clientY - rect.top) / rect.height⟩

/-- `denormalizePosition(x, y, width, height)`: scale a normalized point
back into pixel space. -/
def denormalizePosition (x y width height : ℚ) : Point2 :=
  ⟨x * width, y * height⟩

/-- A JavaScript number as it reaches `formatTime`: either NaN or an
exact value. -/
inductive JSNumber where
  | nan : JSNumber
  | num : ℚ → JSNumber
deriving DecidableEq, Repr

/-- `padStart(2, '0')` on the decimal string of a component. -/
def padTwo (s : String) : String :=
  if s.length < 2 then String.mk (List.replicate (2 - s.length) '0') ++ s else s

/-- `formatTime(seconds)` from src/lib/utils: returns "00:00" for falsy
(0, -0) or NaN input, otherwise formats minutes, seconds and a two-digit
fractional-second component as MM:SS.ff. -/
def formatTime : JSNumber → String
  | .nan => "00:00"
  | .num seconds =>
    if seconds = 0 then "00:00"
    else
      padTwo (toString ⌊seconds / 60⌋) ++ ":" ++
        padTwo (toString ⌊jsRem seconds 60⌋) ++ "." ++
        padTwo (toString ⌊jsRem seconds 1 * 100⌋)

/-- Modelled from the spec wording for the formatter's output shape: the
time floored to whole hundredths decomposes into floored minutes
(`⌊q⌋ / 60`), floored seconds within the minute (`⌊q⌋ % 60`) and the
floored (truncated, never rounded) two-digit fractional component
(`⌊100q⌋ % 100`), each zero-padded to two digits and joined as MM:SS.ff. -/
def specFormatTime (q : ℚ) : String :=
  padTwo (toString (⌊q⌋ / 60)) ++ ":" ++
    padTwo (toString (⌊q⌋ % 60)) ++ "." ++
    padTwo (toString (⌊100 * q⌋ % 100))

theorem jsTrunc_of_nonneg {q : ℚ} (h : 0 ≤ q) : jsTrunc q = ⌊q⌋ := by
  simp [jsTrunc, h]

/-- The code's seconds component `⌊q % 60⌋` equals the spec's `⌊q⌋ % 60`
for nonnegative inputs. -/
theorem floor_jsRem_sixty {q : ℚ} (h : 0 ≤ q) : ⌊jsRem q 60⌋ = ⌊q⌋ % 60 := by
  have h60 : (0 : ℚ) ≤ q / 60 := by positivity
  have hdiv : ⌊q / (60 : ℚ)⌋ = ⌊q⌋ / 60 := by
    have := floor_div_pos_int q 60 (by norm_num)
    simpa using this
  have : jsRem q 60 = q - ((60 * (⌊q⌋ / 60) : ℤ) : ℚ) := by
    rw [jsRem, jsTrunc_of_nonneg h60, hdiv]
    push_cast
    ring
  rw [this, Int.floor_sub_int]
  omega

/-- The code's hundredths component `⌊(q % 1) * 100⌋` equals the spec's
`⌊100q⌋ % 100` for nonnegative inputs. -/
theorem floor_jsRem_one {q : ℚ} (h : 0 ≤ q) : ⌊jsRem q 1 * 100⌋ = ⌊100 * q⌋ % 100 := by
  have h1 : jsRem q 1 = q - ((⌊q⌋ : ℤ) : ℚ) := by
    rw [jsRem, div_one, jsTrunc_of_nonneg h]
    ring
  have h100 : ⌊q⌋ = ⌊100 * q⌋ / 100 := by
    have h2 := floor_div_pos_int (100 * q) 100 (by norm_num)
    have h3 : (100 * q) / ((100 : ℤ) : ℚ) = q := by
      push_cast
      field_simp
    rw [h3] at h2
    exact h2
  have h4 : jsRem q 1 * 100 = 100 * q - ((100 * ⌊q⌋ : ℤ) : ℚ) := by
    rw [h1]
    push_cast
    ring
  rw [h4, Int.floor_sub_int]
  omega

/-- C8: `formatTime` returns "00:00" for falsy or NaN input (in particular
at 0 and at NaN), formats 65.5 as "01:05.50", and on every positive input
produces the floored (truncated, never rounded) minutes, in-minute seconds
and two-digit fractional-second components, each zero-padded to two digits
and joined as MM:SS.ff, as captured by `specFormatTime`. -/
theorem formatTime_zero_nan_floor :
    formatTime .nan = "00:00" ∧
    formatTime (.num 0) = "00:00" ∧
    formatTime (.num (131 / 2)) = "01:05.50" ∧
    ∀ q : ℚ, 0 < q → formatTime (.num q) = specFormatTime q := by
  refine ⟨rfl, by simp [formatTime], ?_, ?_⟩
  · have h1 : ⌊(131 / 2 : ℚ) / 60⌋ = 1 := by norm_num
    have ht : jsTrunc ((131 / 2 : ℚ) / 60) = 1 := by
      rw [jsTrunc, if_pos (by norm_num)]
      exact h1
    have h2 : jsRem (131 / 2 : ℚ) 60 = 11 / 2 := by
      rw [jsRem, ht]
      norm_num
    have ht2 : jsTrunc ((131 / 2 : ℚ) / 1) = 65 := by
      rw [jsTrunc, if_pos (by norm_num)]
      norm_num
    have h3 : jsRem (131 / 2 : ℚ) 1 = 1 / 2 := by
      rw [jsRem, ht2]
      norm_num
    simp only [formatTime, if_neg (by norm_num : (131 / 2 : ℚ) ≠ 0), h1, h2, h3]
    norm_num
    rfl
  intro q hq
  have hne : q ≠ 0 := ne_of_gt hq
  have h0 : (0 : ℚ) ≤ q := le_of_lt hq
  have hmin : ⌊q / (60 : ℚ)⌋ = ⌊q⌋ / 60 := by
    have := floor_div_pos_int q 60 (by norm_num)
    simpa using this
  rw [formatTime, if_neg hne, specFormatTime, hmin,
    floor_jsRem_sixty h0, floor_jsRem_one h0]

/-- Witness for C8 at the concrete positive input 65.5. -/
theorem formatTime_zero_nan_floor_witness :
    formatTime (.num (131 / 2)) = specFormatTime (131 / 2) :=
  formatTime_zero_nan_floor.2.2.2 (131 / 2) (by norm_num)

/-- C7 as stated is false: `denormalizePosition` does not add back the
element's on-screen offset, so when the bounding box is not at the origin
the round trip does not return the original client coordinates.  Concrete
input: pointer at (10, 10) over a box with left = 5, top = 0, width = 2,
height = 4 (both positive) comes back as (5, 10). -/
theorem normalize_denormalize_counterexample :
    (0 : ℚ) < 2 ∧ (0 : ℚ) < 4 ∧
    denormalizePosition (normalizePosition 10 10 ⟨5, 0, 2, 4⟩).x
      (normalizePosition 10 10 ⟨5, 0, 2, 4⟩).y 2 4 ≠ Point2.mk 10 10 := by
  refine ⟨by norm_num, by norm_num, ?_⟩
  simp only [normalizePosition, denormalizePosition, ne_eq, Point2.mk.injEq, not_and]
  intro hx
  norm_num at hx

/-- C7 amended: for every pointer position and element whose bounding box
has positive width and height, `denormalizePosition` after
`normalizePosition` returns the pointer position relative to the element's
top-left corner, i.e. `(clientX - rect.left, clientY - rect.top)`, exactly
(so it equals the original client coordinates precisely when the box sits
at the origin). -/
theorem normalize_denormalize_roundtrip (clientX clientY : ℚ) (rect : DOMRect)
    (hw : 0 < rect.width) (hh : 0 < rect.height) :
    denormalizePosition (normalizePosition clientX clientY rect).x
      (normalizePosition clientX clientY rect).y rect.width rect.height =
      Point2.mk (clientX - rect.left) (clientY - rect.top) := by
  unfold normalizePosition denormalizePosition
  simp only [Point2.mk.injEq]
  constructor
  · exact div_mul_cancel₀ _ (ne_of_gt hw)
  · exact div_mul_cancel₀ _ (ne_of_gt hh)

/-- Witness for the amended C7 at pointer (7, 9) over box (3, 4, 2, 5). -/
theorem normalize_denormalize_roundtrip_witness :
    denormalizePosition (normalizePosition 7 9 ⟨3, 4, 2, 5⟩).x
      (normalizePosition 7 9 ⟨3, 4, 2, 5⟩).y 2 5 = Point2.mk (7 - 3) (9 - 4) :=
  normalize_denormalize_roundtrip 7 9 ⟨3, 4, 2, 5⟩ (by norm_num) (by norm_num)

/-! ## Data model (src/types/index) -/

/-- One sample of a freehand stroke: a normalized point plus the flag
marking the first sample of a stroke segment. -/
structure DrawingPath where
  x : ℚ
  y : ℚ
  isStart : Bool
deriving DecidableEq, Repr

/-- A freehand stroke anchored to one video timestamp. -/
structure Drawing where
  id : String
  time : ℚ
  color : String
  size : ℚ
  path : List DrawingPath
deriving DecidableEq, Repr

/-- A labeled, timestamped point on the video frame (the `Annotation`
record of src/types/index; the Lean name is shortened). -/
structure Annot where
  id : String
  x : ℚ
  y : ℚ
  time : ℚ
  text : String
  color : String
deriving DecidableEq, Repr

/-- An auto-derived replay window with a zoom target. -/
structure Clip where
  id : String
  name : String
  startTime : ℚ
  endTime : ℚ
  duration : ℚ
  speed : ℚ
  zoomX : ℚ
  zoomY : ℚ
deriving DecidableEq, Repr

/-- The serializable session envelope. -/
structure AnalysisData where
  version : String
  notes : String
  drawings : List Drawing
  annotations : List Annot
  clips : List Clip
  primaryVideoFileName : Option String
deriving DecidableEq, Repr

/-- The two pointer-tool modes. -/
inductive ToolMode where
  | point : ToolMode
  | pen : ToolMode
deriving DecidableEq, Repr

/-! ## Playback surface pointer capture (src/components/VideoPlayer.tsx) -/

/-- The capture-local state of the playback surface: the `isDrawing` flag
and the in-progress stroke buffer `currentPathRef.current`. -/
structure CaptureState where
  isDrawing : Bool
  currentPath : List DrawingPath
deriving DecidableEq, Repr

/-- The component mounts with `isDrawing = false` and an empty buffer. -/
def initialCaptureState : CaptureState := ⟨false, []⟩

/-- An `onAddAnnotation(x, y, time)` request issued by point-mode
pointer-down. -/
structure AnnotRequest where
  x : ℚ
  y : ℚ
  time : ℚ
deriving DecidableEq, Repr

/-- `handlePointerDown`: in point mode request an annotation at the
normalized position and current video time; in pen mode begin a stroke
whose buffer holds the single start sample.  The capture element is
modelled by its bounding rectangle; the handler is a no-op before the
refs are mounted, so the mounted case is modelled. -/
def handlePointerDown (toolMode : ToolMode) (clientX clientY : ℚ) (rect : DOMRect)
    (currentTime : ℚ) (s : CaptureState) : CaptureState × Option AnnotRequest :=
  let pos := normalizePosition clientX clientY rect
  match toolMode with
  | .point => (s, some ⟨pos.x, pos.y, currentTime⟩)
  | .pen => (⟨true, [⟨pos.x, pos.y, true⟩]⟩, none)

/-- `handlePointerMove`: while a pen stroke is active, append the
normalized sample with `isStart = false`. -/
def handlePointerMove (toolMode : ToolMode) (clientX clientY : ℚ) (rect : DOMRect)
    (s : CaptureState) : CaptureState :=
  if s.isDrawing = true ∧ toolMode = ToolMode.pen then
    let pos := normalizePosition clientX clientY rect
    ⟨s.isDrawing, s.currentPath ++ [⟨pos.x, pos.y, false⟩]⟩
  else s

/-- `handlePointerUp` (also wired to pointer-leave, which the component
treats identically): end the stroke; emit one Drawing carrying the whole
recorded buffer when it holds more than one sample, otherwise discard. -/
def handlePointerUp (videoPresent : Bool) (currentTime : ℚ) (currentColor : String)
    (brushSize : ℚ) (newId : String) (s : CaptureState) : CaptureState × Option Drawing :=
  if s.isDrawing = true ∧ videoPresent = true then
    if 1 < s.currentPath.length then
      (⟨false, []⟩, some ⟨newId, currentTime, currentColor, brushSize, s.currentPath⟩)
    else
      (⟨false, []⟩, none)
  else (s, none)

/-- A pointer event as dispatched to the capture handlers, carrying the
ambient props (tool mode, color, brush size, video time) at dispatch
time. -/
inductive PtrEvent where
  | down (toolMode : ToolMode) (clientX clientY : ℚ) (rect : DOMRect) (currentTime : ℚ)
  | move (toolMode : ToolMode) (clientX clientY : ℚ) (rect : DOMRect)
  | up (videoPresent : Bool) (currentTime : ℚ) (currentColor : String) (brushSize : ℚ)
      (newId : String)
deriving DecidableEq, Repr

/-- Dispatch one pointer event. -/
def stepEvent (s : CaptureState) : PtrEvent → CaptureState × Option Drawing
  | .down m cx cy r t => ((handlePointerDown m cx cy r t s).1, none)
  | .move m cx cy r => (handlePointerMove m cx cy r s, none)
  | .up v t c b i => handlePointerUp v t c b i s

/-- Run a pointer-event trace, collecting every emitted Drawing. -/
def runTrace (s : CaptureState) : List PtrEvent → CaptureState × List Drawing
  | [] => (s, [])
  | e :: es =>
    let r := stepEvent s e
    let rest := runTrace r.1 es
    (rest.1, r.2.toList ++ rest.2)

/-- A path is single-segment when its first sample is flagged as the
stroke start and no later sample is. -/
def singleSegment : List DrawingPath → Prop
  | [] => True
  | p :: rest => p.isStart = true ∧ ∀ x ∈ rest, x.isStart = false

/-- Invariant of the capture state: while a stroke is active the buffer is
a nonempty single-segment path. -/
def captureInv (s : CaptureState) : Prop :=
  s.isDrawing = true → s.currentPath ≠ [] ∧ singleSegment s.currentPath

theorem captureInv_initial : captureInv initialCaptureState := by
  intro h
  simp [initialCaptureState] at h

theorem stepEvent_inv {s : CaptureState} (e : PtrEvent) (h : captureInv s) :
    captureInv (stepEvent s e).1 ∧
      ∀ d, (stepEvent s e).2 = some d → d.path ≠ [] ∧ singleSegment d.path := by
  cases e with
  | down m cx cy r t =>
    cases m with
    | point =>
      refine ⟨h, ?_⟩
      intro d hd
      simp [stepEvent] at hd
    | pen =>
      constructor
      · intro _
        refine ⟨by simp [stepEvent, handlePointerDown], ?_⟩
        simp [stepEvent, handlePointerDown, singleSegment]
      · intro d hd
        simp [stepEvent] at hd
  | move m cx cy r =>
    constructor
    · by_cases hc : s.isDrawing = true ∧ m = ToolMode.pen
      · intro hdrw
        simp only [stepEvent, handlePointerMove, if_pos hc]
        obtain ⟨hne, hseg⟩ := h hc.1
        cases hp : s.currentPath with
        | nil => exact absurd hp hne
        | cons p rest =>
          rw [hp] at hseg
          refine ⟨by simp, hseg.1, ?_⟩
          intro x hx
          rcases List.mem_append.1 hx with hx | hx
          · exact hseg.2 x hx
          · rw [List.eq_of_mem_singleton hx]
      · intro hdrw
        simp only [stepEvent, handlePointerMove, if_neg hc] at hdrw ⊢
        exact h hdrw
    · intro d hd
      simp [stepEvent] at hd
  | up v t c b i =>
    rw [stepEvent, handlePointerUp]
    by_cases hc : s.isDrawing = true ∧ v = true
    · rw [if_pos hc]
      obtain ⟨hne, hseg⟩ := h hc.1
      by_cases hl : 1 < s.currentPath.length
      · rw [if_pos hl]
        constructor
        · intro hfalse
          simp at hfalse
        · intro d hd
          simp only [Option.some.injEq] at hd
          rw [← hd]
          exact ⟨hne, hseg⟩
      · rw [if_neg hl]
        constructor
        · intro hfalse
          simp at hfalse
        · intro d hd
          simp at hd
    · rw [if_neg hc]
      refine ⟨h, ?_⟩
      intro d hd
      simp at hd

theorem runTrace_emits {s : CaptureState} (es : List PtrEvent) (h : captureInv s) :
    ∀ d ∈ (runTrace s es).2, d.path ≠ [] ∧ singleSegment d.path := by
  induction es generalizing s with
  | nil =>
    intro d hd
    simp [runTrace] at hd
  | cons e es ih =>
    intro d hd
    rw [runTrace] at hd
    simp only [List.mem_append] at hd
    rcases hd with hd | hd
    · rcases ho : (stepEvent s e).2 with _ | d₀
      · rw [ho] at hd
        simp at hd
      · rw [ho] at hd
        simp only [Option.toList_some, List.mem_singleton] at hd
        rw [hd]
        exact (stepEvent_inv e h).2 d₀ ho
    · exact ih (stepEvent_inv e h).1 d hd

/-! ## Canvas replay of a stored Drawing (the render loop's per-drawing
path walk in src/components/VideoPlayer.tsx) -/

/-- A 2D-context call issued while replaying a path. -/
inductive CanvasOp where
  | beginPath : CanvasOp
  | moveTo (x y : ℚ) : CanvasOp
  | lineTo (x y : ℚ) : CanvasOp
  | stroke : CanvasOp
deriving DecidableEq, Repr

/-- The body of `drawing.path.forEach`: `first || p.isStart` starts a new
disconnected segment with `moveTo`; otherwise the point extends the
current segment (`lineTo`, immediate `stroke`, fresh `beginPath`,
`moveTo`). -/
def renderSteps (w h : ℚ) : Bool → List DrawingPath → List CanvasOp
  | _, [] => []
  | first, p :: ps =>
    let pos := denormalizePosition p.x p.y w h
    if first || p.isStart then
      CanvasOp.moveTo pos.x pos.y :: renderSteps w h false ps
    else
      CanvasOp.lineTo pos.x pos.y :: CanvasOp.stroke :: CanvasOp.beginPath ::
        CanvasOp.moveTo pos.x pos.y :: renderSteps w h first ps

/-- Replay of one visible drawing: `ctx.beginPath()` then the path walk
with `first = true`. -/
def renderPathOps (w h : ℚ) (path : List DrawingPath) : List CanvasOp :=
  CanvasOp.beginPath :: renderSteps w h true path

/-- The same walk with the `p.isStart` restart test removed: only the very
first point opens a segment.  A drawing renders identically under this
reduced walk exactly when the multi-segment branch is never exercised. -/
def renderStepsSingle (w h : ℚ) : Bool → List DrawingPath → List CanvasOp
  | _, [] => []
  | first, p :: ps =>
    let pos := denormalizePosition p.x p.y w h
    if first then
      CanvasOp.moveTo pos.x pos.y :: renderStepsSingle w h false ps
    else
      CanvasOp.lineTo pos.x pos.y :: CanvasOp.stroke :: CanvasOp.beginPath ::
        CanvasOp.moveTo pos.x pos.y :: renderStepsSingle w h false ps

/-- Reduced replay of one drawing. -/
def renderPathOpsSingle (w h : ℚ) (path : List DrawingPath) : List CanvasOp :=
  CanvasOp.beginPath :: renderStepsSingle w h true path

theorem renderSteps_of_no_restart (w h : ℚ) (ps : List DrawingPath)
    (hall : ∀ x ∈ ps, x.isStart = false) :
    renderSteps w h false ps = renderStepsSingle w h false ps := by
  induction ps with
  | nil => rfl
  | cons p ps ih =>
    have hp : p.isStart = false := hall p (List.mem_cons_self p ps)
    rw [renderSteps, renderStepsSingle, hp]
    simp only [Bool.or_false, if_neg (by simp : ¬ (false = true))]
    rw [ih (fun x hx => hall x (List.mem_cons_of_mem p hx))]

theorem renderPathOps_single_of_singleSegment (w h : ℚ) (path : List DrawingPath)
    (hp : singleSegment path) :
    renderPathOps w h path = renderPathOpsSingle w h path := by
  cases path with
  | nil => rfl
  | cons p ps =>
    have hps : ∀ x ∈ ps, x.isStart = false := hp.2
    rw [renderPathOps, renderPathOpsSingle, renderSteps, renderStepsSingle]
    simp only [Bool.true_or, if_true]
    rw [renderSteps_of_no_restart w h ps hps]

/-- C5: ending a pen capture by pointer-up (pointer-leave is wired to the
same handler and behaves identically): a recorded buffer of fewer than 2
sample points emits no Drawing (the stroke is discarded), while 2 or more
points emit exactly one Drawing whose path is the whole recorded buffer in
order, tagged with the current playback timestamp, active color and active
brush size. -/
theorem pointerUp_stroke_emission (s : CaptureState) (t : ℚ) (c : String) (b : ℚ)
    (i : String) (hd : s.isDrawing = true) :
    (s.currentPath.length < 2 → (handlePointerUp true t c b i s).2 = none) ∧
    (2 ≤ s.currentPath.length →
      (handlePointerUp true t c b i s).2 = some ⟨i, t, c, b, s.currentPath⟩) := by
  constructor
  · intro hl
    rw [handlePointerUp, if_pos ⟨hd, rfl⟩, if_neg (by omega)]
  · intro hl
    rw [handlePointerUp, if_pos ⟨hd, rfl⟩, if_pos (by omega)]

/-- A concrete two-sample stroke buffer. -/
def cPathTwo : List DrawingPath := [⟨0, 0, true⟩, ⟨1 / 2, 1 / 2, false⟩]

/-- Witness for C5: a two-point capture emits exactly that stroke. -/
theorem pointerUp_stroke_emission_witness :
    (handlePointerUp true 3 "#ef4444" 5 "d1" ⟨true, cPathTwo⟩).2 =
      some ⟨"d1", 3, "#ef4444", 5, cPathTwo⟩ :=
  (pointerUp_stroke_emission ⟨true, cPathTwo⟩ 3 "#ef4444" 5 "d1" rfl).2
    (by rw [cPathTwo]; simp)

/-- C10: every Drawing emitted through the pointer-capture interface is
single-segment: its path is nonempty, `isStart` is true for the first
point and false for every subsequent point, and consequently replaying it
renders identically with the `isStart`-triggered moveTo branch removed
(the multi-segment branch is never exercised). -/
theorem capture_drawings_single_segment (es : List PtrEvent) (d : Drawing)
    (hd : d ∈ (runTrace initialCaptureState es).2) :
    d.path ≠ [] ∧ singleSegment d.path ∧
      ∀ w h, renderPathOps w h d.path = renderPathOpsSingle w h d.path := by
  obtain ⟨hne, hseg⟩ := runTrace_emits es captureInv_initial d hd
  exact ⟨hne, hseg, fun w h => renderPathOps_single_of_singleSegment w h d.path hseg⟩

/-- A concrete capture element box. -/
def cRect : DOMRect := ⟨0, 0, 100, 100⟩

/-- A concrete pen capture: pointer-down at (10,10), one move to (20,20),
pointer-up. -/
def cTrace : List PtrEvent :=
  [PtrEvent.down ToolMode.pen 10 10 cRect 0,
   PtrEvent.move ToolMode.pen 20 20 cRect,
   PtrEvent.up true 0 "#ef4444" 5 "d2"]

/-- The Drawing that capture emits for `cTrace`. -/
def cStrokeDrawing : Drawing :=
  ⟨"d2", 0, "#ef4444", 5, [⟨1 / 10, 1 / 10, true⟩, ⟨1 / 5, 1 / 5, false⟩]⟩

/-- Witness for C10 on the concrete trace `cTrace`. -/
theorem capture_drawings_single_segment_witness :
    cStrokeDrawing ∈ (runTrace initialCaptureState cTrace).2 ∧
      renderPathOps 100 100 cStrokeDrawing.path =
        renderPathOpsSingle 100 100 cStrokeDrawing.path := by
  have hmem : cStrokeDrawing ∈ (runTrace initialCaptureState cTrace).2 := by
    simp only [cTrace, runTrace, stepEvent, initialCaptureState, handlePointerDown,
      handlePointerMove, handlePointerUp, cRect, normalizePosition, cStrokeDrawing]
    norm_num
  exact ⟨hmem,
    (capture_drawings_single_segment cTrace cStrokeDrawing hmem).2.2 100 100⟩

/-! ## Application controller (top-level App component) -/

/-- The controller's state: the React state of the App component together
with the video element's observable transport state (paused, muted,
current position) driven through the player handle. -/
structure AppState where
  videoSrc : Option String
  primaryVideoFileName : Option String
  isPlaying : Bool
  position : ℚ
  duration : ℚ
  playbackSpeed : ℚ
  notes : String
  annotations : List Annot
  drawings : List Drawing
  clips : List Clip
  activeClipId : Option String
  currentColor : String
  muted : Bool
  paused : Bool
deriving DecidableEq, Repr

/-- JavaScript truthiness of a nullable string (`activeClipId ? _ : _`):
null and the empty string are falsy. -/
def jsTruthyStr : Option String → Bool
  | none => false
  | some s => s != ""

/-- `stopClip`: clear the active clip id, pause, unmute, reset the nominal
playback speed to 1.0. -/
def stopClip (s : AppState) : AppState :=
  { s with activeClipId := none, paused := true, muted := false, playbackSpeed := 1 }

/-- The activation tail of `playClip`: mark the clip active, pause the
transport, mute, seek to the clip's startTime.  (The `play()` issued after
the fixed 50ms settle delay is a separately queued event, not part of the
synchronous handler.) -/
def activateClip (c : Clip) (s : AppState) : AppState :=
  { s with
    activeClipId := some c.id
    paused := true
    muted := true
    position := c.startTime }

/-- `playClip`: `if (activeClipId) stopClip();` then activate the new
clip. -/
def playClip (c : Clip) (s : AppState) : AppState :=
  let s₁ := if jsTruthyStr s.activeClipId then stopClip s else s
  { s₁ with
    activeClipId := some c.id
    paused := true
    muted := true
    position := c.startTime }

/-- The effective playback rate handed to the playback surface:
`activeClipId ? 0.5 : playbackSpeed`. -/
def effectiveSpeed (s : AppState) : ℚ :=
  if jsTruthyStr s.activeClipId then 1 / 2 else s.playbackSpeed

/-- `handleDeleteClip` from the sidebar: filter the clip out of the clips
list; nothing else is touched. -/
def handleDeleteClip (clipId : String) (s : AppState) : AppState :=
  { s with clips := s.clips.filter (fun c => c.id != clipId) }

/-- `handleAddAnnotation(x, y, time)`: on narrow viewports pause first;
prompt for a label (`promptText`; `none` models a cancelled prompt); a
falsy response aborts; otherwise append one Annotation and derive and
append one Clip.  The fresh random ids are passed in as `annoId` and
`clipId`. -/
def handleAddAnnot (innerWidth : ℚ) (x y time : ℚ) (promptText : Option String)
    (annoId clipId : String) (s : AppState) : AppState :=
  let s₁ := if innerWidth < 768 then { s with paused := true, isPlaying := false } else s
  match promptText with
  | none => s₁
  | some text =>
    if text = "" then s₁
    else
      let s₂ := { s₁ with
        annotations := s₁.annotations ++ [(⟨annoId, x, y, time, text, s₁.currentColor⟩ : Annot)] }
      let clipDuration : ℚ := 2
      let startTime := max 0 (time - 1 / 2)
      let endTime := min s₂.duration (startTime + clipDuration)
      { s₂ with clips := s₂.clips ++
        [(⟨clipId, text, startTime, endTime, round2 (endTime - startTime), 1 / 2, x, y⟩ : Clip)] }

/-- C2: a nonempty-labelled annotation at normalized (x, y) and time t on
a video of duration D with 0 ≤ t ≤ D appends exactly one Clip with
startTime = max(0, t − 0.5), endTime = min(D, startTime + 2.0), duration
the rounded-to-2-decimals length, speed = 0.5, zoomX = x, zoomY = y; in
particular 0 ≤ startTime ≤ t and endTime ≤ D. -/
theorem addAnnotation_appends_clip (s : AppState) (innerWidth x y t D : ℚ)
    (text annoId clipId : String) (hD : s.duration = D) (ht0 : 0 ≤ t) (_htD : t ≤ D)
    (htext : text ≠ "") :
    (handleAddAnnot innerWidth x y t (some text) annoId clipId s).clips =
      s.clips ++ [⟨clipId, text, max 0 (t - 1 / 2), min D (max 0 (t - 1 / 2) + 2),
        round2 (min D (max 0 (t - 1 / 2) + 2) - max 0 (t - 1 / 2)), 1 / 2, x, y⟩] ∧
    0 ≤ max 0 (t - 1 / 2) ∧ max 0 (t - 1 / 2) ≤ t ∧
    min D (max 0 (t - 1 / 2) + 2) ≤ D := by
  refine ⟨?_, le_max_left 0 _, max_le ht0 (by linarith), min_le_left D _⟩
  by_cases hw : innerWidth < 768 <;>
    simp [handleAddAnnot, hw, htext, hD]

/-- A concrete session state with a 10-second video loaded and no
analysis data yet. -/
def cFreshState : AppState where
  videoSrc := some "v.mp4"
  primaryVideoFileName := some "v.mp4"
  isPlaying := false
  position := 3
  duration := 10
  playbackSpeed := 1
  notes := ""
  annotations := []
  drawings := []
  clips := []
  activeClipId := none
  currentColor := "#ef4444"
  muted := false
  paused := false

/-- Witness for C2: annotation at (1/4, 3/4), t = 3, on a 10-second
video. -/
theorem addAnnotation_appends_clip_witness :
    (handleAddAnnot 1024 (1 / 4) (3 / 4) 3 (some "Point 1") "a1" "c1"
        cFreshState).clips =
      [] ++ [⟨"c1", "Point 1", max 0 (3 - 1 / 2), min 10 (max 0 (3 - 1 / 2) + 2),
        round2 (min 10 (max 0 (3 - 1 / 2) + 2) - max 0 (3 - 1 / 2)), 1 / 2,
        1 / 4, 3 / 4⟩] :=
  (addAnnotation_appends_clip _ 1024 (1 / 4) (3 / 4) 3 10 "Point 1" "a1" "c1"
    rfl (by norm_num) (by norm_num) (by decide)).1

/-- C6: a cancelled or empty annotation-label prompt aborts atomically:
neither the annotations list nor the clips list changes. -/
theorem addAnnotation_abort_on_empty_prompt (s : AppState) (innerWidth x y t : ℚ)
    (annoId clipId : String) (pr : Option String)
    (h : pr = none ∨ pr = some "") :
    (handleAddAnnot innerWidth x y t pr annoId clipId s).annotations =
      s.annotations ∧
    (handleAddAnnot innerWidth x y t pr annoId clipId s).clips = s.clips := by
  rcases h with h | h <;> subst h <;> by_cases hw : innerWidth < 768 <;>
    simp [handleAddAnnot, hw]

/-- A concrete session state holding one annotation and one clip. -/
def cBusyState : AppState where
  videoSrc := some "v.mp4"
  primaryVideoFileName := some "v.mp4"
  isPlaying := true
  position := 3
  duration := 10
  playbackSpeed := 1
  notes := "n"
  annotations := [⟨"a0", 0, 0, 1, "P", "#ef4444"⟩]
  drawings := []
  clips := [⟨"c0", "P", 1, 3, 2, 1 / 2, 0, 0⟩]
  activeClipId := none
  currentColor := "#ef4444"
  muted := false
  paused := false

/-- Witness for C6: a cancelled prompt on a state with one clip. -/
theorem addAnnotation_abort_on_empty_prompt_witness :
    (handleAddAnnot 1024 (1 / 4) (3 / 4) 3 none "a1" "c1"
        cBusyState).annotations = [⟨"a0", 0, 0, 1, "P", "#ef4444"⟩] :=
  (addAnnotation_abort_on_empty_prompt _ 1024 (1 / 4) (3 / 4) 3 "a1" "c1" none
    (Or.inl rfl)).1

/-- C4: at most one clip is marked active in any state (the state holds a
single nullable id), and `playClip` on a state with an active clip first
performs the full `stopClip` reset (clear id, pause, unmute, speed back to
1.0) before activating the new clip — observable in that the nominal
playback speed of the result is 1. -/
theorem playClip_stops_active_first :
    (∀ (s : AppState) (c₁ c₂ : Clip), s.activeClipId = some c₁.id →
      s.activeClipId = some c₂.id → c₁.id = c₂.id) ∧
    ∀ (s : AppState) (c : Clip), jsTruthyStr s.activeClipId = true →
      playClip c s = activateClip c (stopClip s) ∧
      (playClip c s).playbackSpeed = 1 ∧
      (playClip c s).muted = true ∧
      (playClip c s).activeClipId = some c.id := by
  constructor
  · intro s c₁ c₂ h₁ h₂
    rw [h₁] at h₂
    exact Option.some.inj h₂
  · intro s c h
    refine ⟨?_, ?_, ?_, ?_⟩ <;> simp [playClip, activateClip, stopClip, h]

/-- A concrete state in which clip "c0" is actively looping. -/
def cClipActiveState : AppState where
  videoSrc := some "v.mp4"
  primaryVideoFileName := some "v.mp4"
  isPlaying := false
  position := 1
  duration := 10
  playbackSpeed := 1 / 2
  notes := ""
  annotations := []
  drawings := []
  clips := [⟨"c0", "P", 1, 3, 2, 1 / 2, 0, 0⟩, ⟨"c1", "Q", 4, 6, 2, 1 / 2, 0, 0⟩]
  activeClipId := some "c0"
  currentColor := "#ef4444"
  muted := true
  paused := false

/-- Witness for C4: playing a second clip while "c0" is active. -/
theorem playClip_stops_active_first_witness :
    playClip ⟨"c1", "Q", 4, 6, 2, 1 / 2, 0, 0⟩ cClipActiveState =
      activateClip ⟨"c1", "Q", 4, 6, 2, 1 / 2, 0, 0⟩ (stopClip cClipActiveState) :=
  (playClip_stops_active_first.2 _ _ (by decide)).1

/-- C9: deleting the currently active clip from the sidebar changes only
the clips list: `activeClipId` still holds the deleted clip's id, the
video element stays paused and muted exactly as `playClip` left it, the
nominal speed is untouched, and the effective playback rate presented to
the playback surface remains 0.5 — none of the stop-clip reset (unmute,
speed back to 1.0) happens on deletion. -/
theorem deleteActiveClip_frame (s : AppState) (cid : String)
    (ha : s.activeClipId = some cid) (hcid : cid ≠ "")
    (hm : s.muted = true) (hp : s.paused = true) :
    (handleDeleteClip cid s).activeClipId = some cid ∧
    (∀ c ∈ (handleDeleteClip cid s).clips, c.id ≠ cid) ∧
    (handleDeleteClip cid s).muted = true ∧
    (handleDeleteClip cid s).paused = true ∧
    (handleDeleteClip cid s).playbackSpeed = s.playbackSpeed ∧
    effectiveSpeed (handleDeleteClip cid s) = 1 / 2 ∧
    (handleDeleteClip cid s).notes = s.notes ∧
    (handleDeleteClip cid s).annotations = s.annotations ∧
    (handleDeleteClip cid s).drawings = s.drawings ∧
    (handleDeleteClip cid s).position = s.position := by
  refine ⟨by simp [handleDeleteClip, ha], ?_, by simp [handleDeleteClip, hm],
    by simp [handleDeleteClip, hp], by simp [handleDeleteClip], ?_,
    by simp [handleDeleteClip], by simp [handleDeleteClip],
    by simp [handleDeleteClip], by simp [handleDeleteClip]⟩
  · intro c hc
    simp only [handleDeleteClip, List.mem_filter, bne_iff_ne, ne_eq] at hc
    exact hc.2
  · simp [effectiveSpeed, handleDeleteClip, jsTruthyStr, ha, bne_iff_ne, hcid]

/-- A concrete state right after `playClip` on clip "c0": paused, muted,
clip active. -/
def cActivePausedState : AppState where
  videoSrc := some "v.mp4"
  primaryVideoFileName := some "v.mp4"
  isPlaying := false
  position := 1
  duration := 10
  playbackSpeed := 1
  notes := "n"
  annotations := []
  drawings := []
  clips := [⟨"c0", "P", 1, 3, 2, 1 / 2, 0, 0⟩]
  activeClipId := some "c0"
  currentColor := "#ef4444"
  muted := true
  paused := true

/-- Witness for C9: deleting the active clip "c0" keeps the effective
playback rate at 0.5. -/
theorem deleteActiveClip_frame_witness :
    effectiveSpeed (handleDeleteClip "c0" cActivePausedState) = 1 / 2 :=
  (deleteActiveClip_frame cActivePausedState "c0" rfl (by decide) rfl rfl).2.2.2.2.2.1

/-! ## JSON and archive model (saveAnalysis / handleAnalysisUpload) -/

/-- A parsed JSON value (the result of `JSON.parse`).  Numbers are exact
rationals, matching the numeric model used throughout. -/
inductive MJson where
  | null : MJson
  | bool (b : Bool) : MJson
  | num (q : ℚ) : MJson
  | str (s : String) : MJson
  | arr (elems : List MJson) : MJson
  | obj (fields : List (String × MJson)) : MJson

/-- Property access on a parsed object (`JSON.parse` collapses duplicate
keys, so first match is the only match). -/
def assocGet : List (String × MJson) → String → Option MJson
  | [], _ => none
  | (k, v) :: rest, n => if k = n then some v else assocGet rest n

/-- `data.<name>`: `some` when the property exists, `none` (undefined)
otherwise. -/
def MJson.getField : MJson → String → Option MJson
  | .obj fs, n => assocGet fs n
  | _, _ => none

/-- Encoding of one stroke sample by `JSON.stringify`. -/
def encodePathPoint (p : DrawingPath) : MJson :=
  .obj [("x", .num p.x), ("y", .num p.y), ("isStart", .bool p.isStart)]

/-- Encoding of a Drawing by `JSON.stringify`. -/
def encodeDrawing (d : Drawing) : MJson :=
  .obj [("id", .str d.id), ("time", .num d.time), ("color", .str d.color),
    ("size", .num d.size), ("path", .arr (d.path.map encodePathPoint))]

/-- Encoding of an Annotation record by `JSON.stringify`. -/
def encodeAnnot (a : Annot) : MJson :=
  .obj [("id", .str a.id), ("x", .num a.x), ("y", .num a.y), ("time", .num a.time),
    ("text", .str a.text), ("color", .str a.color)]

/-- Encoding of a Clip by `JSON.stringify`. -/
def encodeClip (c : Clip) : MJson :=
  .obj [("id", .str c.id), ("name", .str c.name), ("startTime", .num c.startTime),
    ("endTime", .num c.endTime), ("duration", .num c.duration),
    ("speed", .num c.speed), ("zoomX", .num c.zoomX), ("zoomY", .num c.zoomY)]

/-- Encoding of the AnalysisData envelope by `JSON.stringify` (an absent
optional field is simply omitted). -/
def encodeAnalysisData (d : AnalysisData) : MJson :=
  .obj ([("version", .str d.version), ("notes", .str d.notes),
    ("drawings", .arr (d.drawings.map encodeDrawing)),
    ("annotations", .arr (d.annotations.map encodeAnnot)),
    ("clips", .arr (d.clips.map encodeClip))] ++
    (match d.primaryVideoFileName with
     | some n => [("primaryVideoFileName", .str n)]
     | none => []))

/-- Decode a JSON array elementwise; fails if any element fails. -/
def decodeList {α : Type} (dec : MJson → Option α) : List MJson → Option (List α)
  | [] => some []
  | j :: js =>
    match dec j, decodeList dec js with
    | some a, some rest => some (a :: rest)
    | _, _ => none

/-- Read one stroke sample back from its JSON shape. -/
def decodePathPoint (j : MJson) : Option DrawingPath :=
  match j.getField "x", j.getField "y", j.getField "isStart" with
  | some (.num x), some (.num y), some (.bool b) => some ⟨x, y, b⟩
  | _, _, _ => none

/-- Read a Drawing back from its JSON shape. -/
def decodeDrawing (j : MJson) : Option Drawing :=
  match j.getField "id", j.getField "time", j.getField "color",
      j.getField "size", j.getField "path" with
  | some (.str i), some (.num t), some (.str c), some (.num sz), some (.arr ps) =>
    (decodeList decodePathPoint ps).map (fun path => ⟨i, t, c, sz, path⟩)
  | _, _, _, _, _ => none

/-- Read an Annotation record back from its JSON shape. -/
def decodeAnnot (j : MJson) : Option Annot :=
  match j.getField "id", j.getField "x", j.getField "y", j.getField "time",
      j.getField "text", j.getField "color" with
  | some (.str i), some (.num x), some (.num y), some (.num t),
      some (.str tx), some (.str c) => some ⟨i, x, y, t, tx, c⟩
  | _, _, _, _, _, _ => none

/-- Read a Clip back from its JSON shape. -/
def decodeClip (j : MJson) : Option Clip :=
  match j.getField "id", j.getField "name", j.getField "startTime",
      j.getField "endTime", j.getField "duration", j.getField "speed",
      j.getField "zoomX", j.getField "zoomY" with
  | some (.str i), some (.str n), some (.num st), some (.num en), some (.num du),
      some (.num sp), some (.num zx), some (.num zy) =>
    some ⟨i, n, st, en, du, sp, zx, zy⟩
  | _, _, _, _, _, _, _, _ => none

/-- `setNotes(data.notes || '')`: absent or falsy gives the empty string;
a string value passes through (values outside the AnalysisData shape are
not representable in the typed state and are not modelled). -/
def importNotes (j : MJson) : String :=
  match j.getField "notes" with
  | some (.str s) => s
  | _ => ""

/-- `setDrawings(data.drawings || [])`: absent gives the empty list; a
present array (arrays are always truthy) is stored as the drawings list.
Entries outside the Drawing shape are not representable in the typed
state and are not modelled. -/
def importDrawings (j : MJson) : List Drawing :=
  match j.getField "drawings" with
  | some (.arr js) => (decodeList decodeDrawing js).getD []
  | _ => []

/-- `setAnnotations(data.annotations || [])`, as for drawings. -/
def importAnnots (j : MJson) : List Annot :=
  match j.getField "annotations" with
  | some (.arr js) => (decodeList decodeAnnot js).getD []
  | _ => []

/-- `setClips(data.clips || [])`, as for drawings. -/
def importClips (j : MJson) : List Clip :=
  match j.getField "clips" with
  | some (.arr js) => (decodeList decodeClip js).getD []
  | _ => []

/-- The four metadata setters executed on a successful parse. -/
def applyMetadata (j : MJson) (s : AppState) : AppState :=
  { s with
    notes := importNotes j
    drawings := importDrawings j
    annotations := importAnnots j
    clips := importClips j }

/-- `if (data.primaryVideoFileName)`: the archive format always stores a
string here, so the usable truthy values are the nonempty strings. -/
def importVideoName (j : MJson) : Option String :=
  match j.getField "primaryVideoFileName" with
  | some (.str s) => if s = "" then none else some s
  | _ => none

/-- The content of a zip entry: a text entry is abstracted to whether its
string is empty plus its `JSON.parse` outcome (`Except.error` models the
parser throwing); a binary entry is opaque. -/
inductive MContent where
  | text (empty : Bool) (parse : Except Unit MJson) : MContent
  | blob : MContent

/-- A zip entry whose asynchronous read (`async("string")` /
`async("blob")`) can itself throw. -/
structure MZipEntry where
  read : Except Unit MContent

/-- A loaded archive.  `zip.file(name, data)` at build time replaces an
existing entry of the same name (JSZip keys entries by name), so lookup
must return the LAST entry recorded under a name. -/
structure MZip where
  files : List (String × MZipEntry)

/-- Name lookup with last-entry-wins semantics. -/
def zfile : List (String × MZipEntry) → String → Option MZipEntry
  | [], _ => none
  | (k, e) :: rest, n =>
    match zfile rest n with
    | some r => some r
    | none => if k = n then some e else none

/-- `zip.file(name)`. -/
def MZip.file (z : MZip) (n : String) : Option MZipEntry := zfile z.files n

/-- A user-facing `alert(...)` raised during import. -/
inductive MAlert where
  | loadFailed : MAlert
  | videoMissing (name : String) : MAlert
deriving DecidableEq, Repr

/-- Installing the extracted video: a fresh object URL for the blob and
the reconstructed File become the active video (both are modelled by the
entry name). -/
def installVideo (name : String) (s : AppState) : AppState :=
  { s with videoSrc := some name, primaryVideoFileName := some name }

/-- `handleAnalysisUpload`: open the archive, read and parse
`analysis_data.json`, commit the four metadata setters, then try to
extract the referenced video.  Exceptions (modelled by `Except.error` at
the zip-open, entry-read or parse stage) reach the single catch block,
which alerts "Failed to load analysis file." — state mutations already
issued before the throw remain committed. -/
def handleAnalysisUpload (load : Except Unit MZip) (s : AppState) :
    AppState × List MAlert :=
  match load with
  | .error _ => (s, [.loadFailed])
  | .ok zip =>
    match zip.file "analysis_data.json" with
    | none => (s, [])
    | some entry =>
      match entry.read with
      | .error _ => (s, [.loadFailed])
      | .ok (.blob) => (s, [.loadFailed])
      | .ok (.text isEmpty parse) =>
        if isEmpty then (s, [])
        else
          match parse with
          | .error _ => (s, [.loadFailed])
          | .ok j =>
            let s₁ := applyMetadata j s
            match importVideoName j with
            | none => (s₁, [])
            | some name =>
              match zip.file name with
              | none => (s₁, [.videoMissing name])
              | some ve =>
                match ve.read with
                | .error _ => (s₁, [.loadFailed])
                | .ok _ => (installVideo name s₁, [])

/-- The AnalysisData envelope built by `saveAnalysis` from the current
state and the loaded primary video's file name. -/
def exportEnvelope (s : AppState) (videoName : String) : AnalysisData :=
  ⟨"1.0", s.notes, s.drawings, s.annotations, s.clips, some videoName⟩

/-- The archive built by `saveAnalysis`: the metadata entry followed by
the raw video entry stored under the video's own name. -/
def saveZip (s : AppState) (videoName : String) : MZip :=
  ⟨[("analysis_data.json",
      ⟨.ok (.text false (.ok (encodeAnalysisData (exportEnvelope s videoName))))⟩),
    (videoName, ⟨.ok .blob⟩)]⟩

theorem decodeList_map {α : Type} (dec : MJson → Option α) (enc : α → MJson)
    (h : ∀ a, dec (enc a) = some a) (l : List α) :
    decodeList dec (l.map enc) = some l := by
  induction l with
  | nil => rfl
  | cons a rest ih =>
    rw [List.map_cons, decodeList, h a, ih]

theorem decodePathPoint_encode (p : DrawingPath) :
    decodePathPoint (encodePathPoint p) = some p := rfl

theorem decodeDrawing_encode (d : Drawing) :
    decodeDrawing (encodeDrawing d) = some d := by
  have hfields : decodeDrawing (encodeDrawing d) =
      (decodeList decodePathPoint (d.path.map encodePathPoint)).map
        (fun path => ⟨d.id, d.time, d.color, d.size, path⟩) := rfl
  rw [hfields, decodeList_map _ _ decodePathPoint_encode]
  rfl

theorem decodeAnnot_encode (a : Annot) : decodeAnnot (encodeAnnot a) = some a := rfl

theorem decodeClip_encode (c : Clip) : decodeClip (encodeClip c) = some c := rfl

/-- Applying the import setters to the encoded envelope restores the four
collections exactly. -/
theorem applyMetadata_encode (env : AnalysisData) (s : AppState) :
    (applyMetadata (encodeAnalysisData env) s).notes = env.notes ∧
    (applyMetadata (encodeAnalysisData env) s).drawings = env.drawings ∧
    (applyMetadata (encodeAnalysisData env) s).annotations = env.annotations ∧
    (applyMetadata (encodeAnalysisData env) s).clips = env.clips := by
  refine ⟨?_, ?_, ?_, ?_⟩
  · cases env.primaryVideoFileName <;> rfl
  · show importDrawings (encodeAnalysisData env) = env.drawings
    have h : importDrawings (encodeAnalysisData env) =
        (decodeList decodeDrawing (env.drawings.map encodeDrawing)).getD [] := by
      cases henv : env.primaryVideoFileName <;>
        simp [importDrawings, encodeAnalysisData, MJson.getField, assocGet, henv]
    rw [h, decodeList_map _ _ decodeDrawing_encode]
    rfl
  · show importAnnots (encodeAnalysisData env) = env.annotations
    have h : importAnnots (encodeAnalysisData env) =
        (decodeList decodeAnnot (env.annotations.map encodeAnnot)).getD [] := by
      cases henv : env.primaryVideoFileName <;>
        simp [importAnnots, encodeAnalysisData, MJson.getField, assocGet, henv]
    rw [h, decodeList_map _ _ decodeAnnot_encode]
    rfl
  · show importClips (encodeAnalysisData env) = env.clips
    have h : importClips (encodeAnalysisData env) =
        (decodeList decodeClip (env.clips.map encodeClip)).getD [] := by
      cases henv : env.primaryVideoFileName <;>
        simp [importClips, encodeAnalysisData, MJson.getField, assocGet, henv]
    rw [h, decodeList_map _ _ decodeClip_encode]
    rfl

theorem saveZip_file_json (s : AppState) (videoName : String)
    (hn : videoName ≠ "analysis_data.json") :
    (saveZip s videoName).file "analysis_data.json" =
      some ⟨.ok (.text false (.ok (encodeAnalysisData (exportEnvelope s videoName))))⟩ := by
  simp only [saveZip, MZip.file, zfile]
  rw [if_neg hn]
  simp

theorem saveZip_file_video (s : AppState) (videoName : String) :
    (saveZip s videoName).file videoName = some ⟨.ok .blob⟩ := by
  simp [saveZip, MZip.file, zfile]

theorem importVideoName_encode (env : AnalysisData) (videoName : String)
    (h : env.primaryVideoFileName = some videoName) :
    importVideoName (encodeAnalysisData env) =
      if videoName = "" then none else some videoName := by
  simp [importVideoName, encodeAnalysisData, MJson.getField, assocGet, h]

/-- C1 amended: exporting then importing an archive restores notes,
drawings, annotations and clips exactly and reports no failure — for
every session state and every primary video whose file name is not the
reserved metadata entry name "analysis_data.json" (a video by that name
overwrites the metadata inside the archive, see the counterexample). -/
theorem archive_roundtrip_lossless (s sImp : AppState) (videoName : String)
    (hn : videoName ≠ "analysis_data.json") :
    (handleAnalysisUpload (.ok (saveZip s videoName)) sImp).1.notes = s.notes ∧
    (handleAnalysisUpload (.ok (saveZip s videoName)) sImp).1.drawings = s.drawings ∧
    (handleAnalysisUpload (.ok (saveZip s videoName)) sImp).1.annotations =
      s.annotations ∧
    (handleAnalysisUpload (.ok (saveZip s videoName)) sImp).1.clips = s.clips ∧
    (handleAnalysisUpload (.ok (saveZip s videoName)) sImp).2 = [] := by
  have henv : (exportEnvelope s videoName).primaryVideoFileName = some videoName := rfl
  have hmeta := applyMetadata_encode (exportEnvelope s videoName) sImp
  have hrun : handleAnalysisUpload (.ok (saveZip s videoName)) sImp =
      (if videoName = "" then
        (applyMetadata (encodeAnalysisData (exportEnvelope s videoName)) sImp, [])
      else
        (installVideo videoName
          (applyMetadata (encodeAnalysisData (exportEnvelope s videoName)) sImp), [])) := by
    rw [handleAnalysisUpload, saveZip_file_json s videoName hn]
    simp only [importVideoName_encode (exportEnvelope s videoName) videoName henv]
    by_cases hv : videoName = ""
    · simp [hv]
    · simp only [if_neg hv]
      rw [saveZip_file_video s videoName]
      simp
  by_cases hv : videoName = ""
  · rw [hrun, if_pos hv]
    exact ⟨hmeta.1, hmeta.2.1, hmeta.2.2.1, hmeta.2.2.2, by trivial⟩
  · rw [hrun, if_neg hv]
    simp only [installVideo]
    exact ⟨hmeta.1, hmeta.2.1, hmeta.2.2.1, hmeta.2.2.2, by trivial⟩

/-- Witness for the amended C1: exporting the busy session with video
"v.mp4" and importing into a fresh session restores the notes. -/
theorem archive_roundtrip_lossless_witness :
    (handleAnalysisUpload (.ok (saveZip cBusyState "v.mp4")) cFreshState).1.notes =
      cBusyState.notes :=
  (archive_roundtrip_lossless cBusyState cFreshState "v.mp4" (by decide)).1

/-- C1 as stated is false: a primary video named exactly
"analysis_data.json" replaces the metadata entry inside the archive
(JSZip keys entries by name), so importing the exported archive fails and
restores nothing — the restored notes differ from the exported ones. -/
theorem archive_roundtrip_counterexample :
    (handleAnalysisUpload (.ok (saveZip cBusyState "analysis_data.json"))
        cFreshState).2 = [MAlert.loadFailed] ∧
    (handleAnalysisUpload (.ok (saveZip cBusyState "analysis_data.json"))
        cFreshState).1.notes ≠ cBusyState.notes := by
  exact ⟨rfl, by decide⟩

/-- C3 amended: an exception at the zip-open, metadata-read or
metadata-parse stage aborts with the failure notification and commits
nothing, but an exception while reading the referenced video entry (after
a successful parse) keeps the already-committed restored metadata — only
the video itself is left unchanged. -/
theorem import_abort_stages (s : AppState) (zip : MZip) :
    (handleAnalysisUpload (.error ()) s = (s, [MAlert.loadFailed])) ∧
    (∀ entry, zip.file "analysis_data.json" = some entry →
      entry.read = .error () →
      handleAnalysisUpload (.ok zip) s = (s, [MAlert.loadFailed])) ∧
    (∀ entry, zip.file "analysis_data.json" = some entry →
      entry.read = .ok (.text false (.error ())) →
      handleAnalysisUpload (.ok zip) s = (s, [MAlert.loadFailed])) ∧
    (∀ entry j name ve, zip.file "analysis_data.json" = some entry →
      entry.read = .ok (.text false (.ok j)) → importVideoName j = some name →
      zip.file name = some ve → ve.read = .error () →
      handleAnalysisUpload (.ok zip) s = (applyMetadata j s, [MAlert.loadFailed]) ∧
      (applyMetadata j s).videoSrc = s.videoSrc ∧
      (applyMetadata j s).primaryVideoFileName = s.primaryVideoFileName) := by
  refine ⟨rfl, ?_, ?_, ?_⟩
  · intro entry hfile hread
    rw [handleAnalysisUpload, hfile]
    dsimp only
    rw [hread]
  · intro entry hfile hread
    rw [handleAnalysisUpload, hfile]
    dsimp only
    rw [hread]
    simp
  · intro entry j name ve hfile hread hname hvfile hvread
    refine ⟨?_, rfl, rfl⟩
    rw [handleAnalysisUpload, hfile]
    dsimp only
    rw [hread]
    simp only [if_neg (by simp : ¬ (false = true))]
    rw [hname]
    dsimp only
    rw [hvfile]
    dsimp only
    rw [hvread]

/-- The metadata of the C3 counterexample archive. -/
def cImportJson : MJson := encodeAnalysisData ⟨"1.0", "new", [], [], [], some "v.mp4"⟩

/-- An archive whose metadata parses but whose referenced video entry
throws on read. -/
def cCorruptVideoZip : MZip :=
  ⟨[("analysis_data.json", ⟨.ok (.text false (.ok cImportJson))⟩),
    ("v.mp4", ⟨.error ()⟩)]⟩

/-- C3 as stated is false: the video-entry read exception reaches the
catch block (the failure notification is raised) yet the metadata already
committed stays — the notes are no longer what they were before the
import. -/
theorem import_abort_counterexample :
    (handleAnalysisUpload (.ok cCorruptVideoZip) cFreshState).2 =
      [MAlert.loadFailed] ∧
    (handleAnalysisUpload (.ok cCorruptVideoZip) cFreshState).1.notes ≠
      cFreshState.notes := by
  exact ⟨rfl, by decide⟩

/-- Witness for the amended C3 at the concrete corrupt-video archive. -/
theorem import_abort_stages_witness :
    handleAnalysisUpload (.ok cCorruptVideoZip) cFreshState =
      (applyMetadata cImportJson cFreshState, [MAlert.loadFailed]) :=
  ((import_abort_stages cFreshState cCorruptVideoZip).2.2.2
    ⟨.ok (.text false (.ok cImportJson))⟩ cImportJson "v.mp4" ⟨.error ()⟩
    rfl rfl rfl rfl rfl).1
